import Mathlib

/-
Verification of the quiz-session state machine of the CodeMaster Quiz
application.  The React component App (src/unnamed/part_000) owns all
session state; its handlers (handleAnswer, handleNext, handleBack,
handleFinish, fetchQuestions) together with the button gating in the
rendered components (QuizArea, TopicSelector, ScoreDisplay) form the
session controller.  The question source is generateQuizQuestions
(src/services/geminiService.ts).  All of it is embedded below as pure
state-transition functions.
-/

namespace Quiz

/-- Embeds the QuizQuestion interface from types (src/unnamed/part_001). -/
structure QuizQuestion where
  questionText : String
  answerOptions : List String
  correctAnswer : String
  explanationText : String
deriving DecidableEq, Repr, Inhabited

/-- Embeds the QuizStatus enum from types (src/unnamed/part_001). -/
inductive QuizStatus where
  | NOT_STARTED
  | LOADING
  | IN_PROGRESS
  | FINISHED
deriving DecidableEq, Repr

/-- Embeds the useState variables of the App component: quizStatus, topic,
questions, currentQuestionIndex, score, userAnswers, time, error.
A userAnswers slot of none models the null slot of the source. -/
structure AppState where
  quizStatus : QuizStatus
  topic : String
  questions : List QuizQuestion
  currentQuestionIndex : Nat
  score : Nat
  userAnswers : List (Option String)
  time : Nat
  error : Option String
deriving DecidableEq, Repr

/-- Embeds the initial useState values of App. -/
def initialState : AppState :=
  { quizStatus := QuizStatus.NOT_STARTED
    topic := "Class and Object in C++"
    questions := []
    currentQuestionIndex := 0
    score := 0
    userAnswers := []
    time := 0
    error := none }

/-- Embeds the isAnswered flag computed in QuizArea from the userAnswer prop,
which App passes as userAnswers[currentQuestionIndex].  In JavaScript the
test userAnswer !== null is also true when the index is out of range
(undefined !== null), so the flag is false exactly when the slot exists and
holds null. -/
def isAnswered (s : AppState) : Bool :=
  match s.userAnswers[s.currentQuestionIndex]? with
  | some none => false
  | _ => true

/-- Embeds handleAnswer of App.  The guard userAnswers[currentQuestionIndex]
!== null returns early both when the slot is set and when the index is out
of range (undefined !== null is true in JavaScript), so the recording branch
runs only when the slot exists and is null.  It copies userAnswers with the
slot set to the selection and increments score when the selection equals
the correct answer of the current question. -/
def handleAnswer (s : AppState) (selectedAnswer : String) : AppState :=
  match s.userAnswers[s.currentQuestionIndex]? with
  | some none =>
      let newAnswers := s.userAnswers.set s.currentQuestionIndex (some selectedAnswer)
      let q := s.questions.getD s.currentQuestionIndex default
      { s with userAnswers := newAnswers
               score := if q.correctAnswer = selectedAnswer then s.score + 1 else s.score }
  | _ => s

/-- Embeds handleNext of App: advance only while the index is below
questions.length - 1.  Nat subtraction agrees with the JavaScript
comparison: for an empty list the guard is false in both. -/
def handleNext (s : AppState) : AppState :=
  if s.currentQuestionIndex < s.questions.length - 1 then
    { s with currentQuestionIndex := s.currentQuestionIndex + 1 }
  else s

/-- Embeds handleBack of App: retreat only while the index is positive. -/
def handleBack (s : AppState) : AppState :=
  if s.currentQuestionIndex > 0 then
    { s with currentQuestionIndex := s.currentQuestionIndex - 1 }
  else s

/-- Embeds handleFinish of App, which unconditionally sets status FINISHED.
The guards live in the rendered buttons, see finish below. -/
def handleFinish (s : AppState) : AppState :=
  { s with quizStatus := QuizStatus.FINISHED }

/-- Embeds the JavaScript topic.trim() call: whitespace stripped from both
ends of the string.  It is defined over the character list (rather than via
the well-founded recursion of the core library trim) so that it evaluates
by kernel reduction; on the ASCII whitespace involved here it agrees with
the JavaScript trim. -/
def trim (t : String) : String :=
  String.mk (((t.data.dropWhile Char.isWhitespace).reverse.dropWhile Char.isWhitespace).reverse)

/-- Embeds fetchQuestions of App.  The outcome of the asynchronous
generateQuizQuestions call is passed in as an Except value: ok carries the
returned question list, error carries the message of the thrown Error.
The body returns early when the trimmed topic is empty (the falsy test
on topic.trim()), otherwise enters LOADING with error cleared, then either
seeds a fresh session (ten or more questions), or records the
insufficient-content message, or records the caught error message; the two
failure branches set only status and error, leaving questions, userAnswers,
currentQuestionIndex, score and time as they were. -/
def fetchQuestions (s : AppState) (result : Except String (List QuizQuestion)) : AppState :=
  if trim s.topic = "" then s
  else
    let s1 : AppState := { s with quizStatus := QuizStatus.LOADING, error := none }
    match result with
    | Except.ok newQuestions =>
        if newQuestions.length < 10 then
          { s1 with quizStatus := QuizStatus.NOT_STARTED
                    error := some "The AI generated fewer than 10 questions. Please try again with a clearer topic." }
        else
          { s1 with questions := newQuestions
                    userAnswers := List.replicate newQuestions.length none
                    currentQuestionIndex := 0
                    score := 0
                    time := 0
                    quizStatus := QuizStatus.IN_PROGRESS }
    | Except.error msg =>
        { s1 with quizStatus := QuizStatus.NOT_STARTED, error := some msg }

/-- Embeds one firing of the interval set up by the useEffect of App: the
interval exists exactly while quizStatus is IN_PROGRESS (it is cleared on
leaving that status), and each firing adds one to time. -/
def tick (s : AppState) : AppState :=
  if s.quizStatus = QuizStatus.IN_PROGRESS then { s with time := s.time + 1 } else s

/-- Embeds the user-level answer operation: QuizArea is rendered only while
IN_PROGRESS, its option buttons are disabled once isAnswered, and
handleAnswerClick guards the call with the same flag before invoking
handleAnswer. -/
def answer (s : AppState) (x : String) : AppState :=
  if s.quizStatus = QuizStatus.IN_PROGRESS ∧ isAnswered s = false then
    handleAnswer s x
  else s

/-- Embeds the user-level next operation: the Next button is rendered only
while IN_PROGRESS and only when questionNumber < totalQuestions, and it is
disabled unless isAnswered; when clickable it invokes handleNext. -/
def next (s : AppState) : AppState :=
  if s.quizStatus = QuizStatus.IN_PROGRESS ∧
     s.currentQuestionIndex + 1 < s.questions.length ∧ isAnswered s = true then
    handleNext s
  else s

/-- Embeds the user-level back operation: the Back button is rendered only
while IN_PROGRESS and disabled when questionNumber = 1, that is when the
index is 0; when clickable it invokes handleBack. -/
def back (s : AppState) : AppState :=
  if s.quizStatus = QuizStatus.IN_PROGRESS ∧ s.currentQuestionIndex > 0 then
    handleBack s
  else s

/-- Embeds the user-level finish operation: the Finish button is rendered
only while IN_PROGRESS, only in place of Next (when questionNumber <
totalQuestions fails), and is disabled unless isAnswered; when clickable it
invokes handleFinish. -/
def finish (s : AppState) : AppState :=
  if s.quizStatus = QuizStatus.IN_PROGRESS ∧
     ¬ s.currentQuestionIndex + 1 < s.questions.length ∧ isAnswered s = true then
    handleFinish s
  else s

/-- User-visible operations of the controller.  start and restart carry the
outcome of the generation call they trigger. -/
inductive Op where
  | start (result : Except String (List QuizQuestion))
  | restart (result : Except String (List QuizQuestion))
  | answer (x : String)
  | next
  | back
  | finish
  | tick
  | setTopic (t : String)

/-- Marks the operations that run a generation request and may reseed the
session. -/
def Op.isLoad : Op → Bool
  | Op.start _ => true
  | Op.restart _ => true
  | _ => false

/-- One dispatch of a user-level operation against the App state.  start is
available only from the TopicSelector (rendered in NOT_STARTED, button
disabled when the trimmed topic is empty); restart only from the
ScoreDisplay (rendered in FINISHED); setTopic only through the topic input
of the TopicSelector; the quiz operations only through QuizArea as embedded
above. -/
def step (s : AppState) : Op → AppState
  | Op.start r => if s.quizStatus = QuizStatus.NOT_STARTED ∧ ¬ trim s.topic = "" then
      fetchQuestions s r else s
  | Op.restart r => if s.quizStatus = QuizStatus.FINISHED then fetchQuestions s r else s
  | Op.answer x => answer s x
  | Op.next => next s
  | Op.back => back s
  | Op.finish => finish s
  | Op.tick => tick s
  | Op.setTopic t => if s.quizStatus = QuizStatus.NOT_STARTED then { s with topic := t } else s

/-- States reachable from the initial App state by user-level operations. -/
inductive Reachable : AppState → Prop where
  | init : Reachable initialState
  | step : ∀ {s : AppState}, Reachable s → ∀ op : Op, Reachable (step s op)

/-- Number of set slots in an answer list. -/
def countSome (l : List (Option String)) : Nat :=
  l.countP (fun o => o.isSome)

/-- Auxiliary invariant: answers and questions have equal length and the
score is at most the number of set slots. -/
def Inv (s : AppState) : Prop :=
  s.userAnswers.length = s.questions.length ∧ s.score ≤ countSome s.userAnswers

/-- Embeds the record shape the JSON parse can deliver to
generateQuizQuestions (src/services/geminiService.ts): each field of the
QuizQuestion interface may be present or absent, since the function never
inspects the records it returns. -/
structure RawQuestion where
  questionText : Option String
  answerOptions : Option (List String)
  correctAnswer : Option String
  explanationText : Option String
deriving DecidableEq, Repr

/-- Embeds generateQuizQuestions (src/services/geminiService.ts).  apiKey
models process.env.API_KEY (none when unset or empty, both falsy in
JavaScript); parsed models the questions field of the JSON-parsed response
text: none when the parse fails or the field is missing or not an array,
some qs when it is the array qs.  The source checks only that the field is
a nonempty array before returning it unchanged; every failure inside the
try block is rethrown with the generic retry message. -/
def generateQuizQuestions (apiKey : Option String)
    (parsed : Option (List RawQuestion)) : Except String (List RawQuestion) :=
  if apiKey = none then
    Except.error "API_KEY environment variable not set"
  else
    match parsed with
    | some qs =>
        if qs.length > 0 then Except.ok qs
        else Except.error "Could not generate the quiz. Please check the topic or try again later."
    | none => Except.error "Could not generate the quiz. Please check the topic or try again later."

/-- Well-formedness the specification requires of every returned question
record: all four fields present, exactly 4 answer options, and the correct
answer exactly equal to one of the options. -/
def wellFormedQuestion (q : RawQuestion) : Prop :=
  q.questionText.isSome = true ∧ q.explanationText.isSome = true ∧
  (∃ opts, q.answerOptions = some opts ∧ opts.length = 4 ∧
    ∃ c, q.correctAnswer = some c ∧ c ∈ opts)

instance (q : RawQuestion) : Decidable (wellFormedQuestion q) := by
  unfold wellFormedQuestion
  exact inferInstance

/-- Embeds the padStart calls of formatTime: the JavaScript padStart with a
single-character pad string prepends the pad character until the target
length is reached and returns the string unchanged when it is already long
enough (Nat subtraction makes the replicate count 0 in that case). -/
def padStart (str : String) (targetLength : Nat) (pad : Char) : String :=
  String.mk (List.replicate (targetLength - str.length) pad) ++ str

/-- Embeds formatTime (src/unnamed/part_000): minutes are Math.floor of
seconds over 60 rendered in decimal (Nat.repr, as toString of a
non-negative integer) and padded to 2 with zeros, seconds are the remainder
mod 60 padded the same way, joined with a colon. -/
def formatTime (seconds : Nat) : String :=
  let mins := padStart (Nat.repr (seconds / 60)) 2 '0'
  let secs := padStart (Nat.repr (seconds % 60)) 2 '0'
  mins ++ ":" ++ secs

/-- Rendering described by the claim, written from its words: floor of s
over 60 in decimal, left-padded with zeros to at least 2 digits, then a
colon, then s mod 60 left-padded to 2 digits. -/
def leftPadZeros (str : String) (k : Nat) : String :=
  if k ≤ str.length then str
  else String.mk (List.replicate (k - str.length) '0') ++ str

/-- Display string as the claim words it, built from leftPadZeros. -/
def elapsedDisplaySpec (s : Nat) : String :=
  leftPadZeros (Nat.repr (s / 60)) 2 ++ ":" ++ leftPadZeros (Nat.repr (s % 60)) 2

/-- A fixed well-formed question used in concrete runs. -/
def sampleQuestion : QuizQuestion :=
  { questionText := "What is 2 + 2?"
    answerOptions := ["A", "B", "C", "D"]
    correctAnswer := "A"
    explanationText := "Basic arithmetic." }

/-- Ten copies of the sample question: a minimal valid generation result. -/
def tenQuestions : List QuizQuestion :=
  List.replicate 10 sampleQuestion

/-- Operations answering every question in order: answer then next for the
first nine questions, then answer the last one. -/
def answerAllOps : List Op :=
  [Op.answer "A", Op.next, Op.answer "A", Op.next, Op.answer "A", Op.next,
   Op.answer "A", Op.next, Op.answer "A", Op.next, Op.answer "A", Op.next,
   Op.answer "A", Op.next, Op.answer "A", Op.next, Op.answer "A", Op.next,
   Op.answer "A"]

/-- A run that finishes a full session and then restarts with a failing
generation call. -/
def failedRestartRun : AppState :=
  ((Op.start (Except.ok tenQuestions) :: answerAllOps) ++
    [Op.tick, Op.tick, Op.tick, Op.finish, Op.restart (Except.error "boom")]).foldl step initialState

/-- An InProgress state with every slot answered and the index moved back to
the first question: reached by answering all ten questions and pressing
Back nine times. -/
def allAnsweredAtStart : AppState :=
  ((Op.start (Except.ok tenQuestions) :: answerAllOps) ++
    [Op.back, Op.back, Op.back, Op.back, Op.back, Op.back, Op.back, Op.back,
     Op.back]).foldl step initialState

/-- A malformed record: two options, correct answer not among them,
explanation missing. -/
def badQuestion : RawQuestion :=
  { questionText := some "q"
    answerOptions := some ["x", "y"]
    correctAnswer := some "z"
    explanationText := none }

/-- A small InProgress state used to instantiate hypotheses in witnesses:
first question answered, second not. -/
def sampleInProgress : AppState :=
  { quizStatus := QuizStatus.IN_PROGRESS
    topic := "t"
    questions := tenQuestions
    currentQuestionIndex := 0
    score := 1
    userAnswers := some "A" :: List.replicate 9 none
    time := 7
    error := none }

/-- An InProgress state sitting on the last question with every slot set. -/
def sampleAtLast : AppState :=
  { sampleInProgress with
      currentQuestionIndex := 9
      score := 10
      userAnswers := List.replicate 10 (some "A") }

/-- An InProgress state with no slot set yet. -/
def sampleUnanswered : AppState :=
  { sampleInProgress with
      score := 0
      userAnswers := List.replicate 10 none }

/-! Helper lemmas about the embedded operations. -/

theorem countSome_le_length (l : List (Option String)) : countSome l ≤ l.length :=
  List.countP_le_length _

theorem countSome_set (l : List (Option String)) (i : Nat) (x : String)
    (h : l[i]? = some none) :
    countSome (l.set i (some x)) = countSome l + 1 := by
  induction l generalizing i with
  | nil => simp at h
  | cons a t ih =>
      cases i with
      | zero =>
          simp at h
          subst h
          simp [countSome, List.countP_cons]
      | succ j =>
          simp at h
          have := ih j h
          simp [countSome, List.countP_cons] at this ⊢
          omega

theorem countSome_replicate_none (n : Nat) :
    countSome (List.replicate n none) = 0 := by
  induction n with
  | zero => rfl
  | succ m ih => simp_all [countSome, List.replicate, List.countP_cons]

theorem next_fields (s : AppState) :
    (next s).quizStatus = s.quizStatus ∧ (next s).topic = s.topic ∧
    (next s).questions = s.questions ∧ (next s).userAnswers = s.userAnswers ∧
    (next s).score = s.score ∧ (next s).time = s.time ∧ (next s).error = s.error := by
  unfold next handleNext
  split_ifs <;> simp

theorem back_fields (s : AppState) :
    (back s).quizStatus = s.quizStatus ∧ (back s).topic = s.topic ∧
    (back s).questions = s.questions ∧ (back s).userAnswers = s.userAnswers ∧
    (back s).score = s.score ∧ (back s).time = s.time ∧ (back s).error = s.error := by
  unfold back handleBack
  split_ifs <;> simp

theorem finish_fields (s : AppState) :
    (finish s).topic = s.topic ∧ (finish s).questions = s.questions ∧
    (finish s).userAnswers = s.userAnswers ∧ (finish s).score = s.score ∧
    (finish s).currentQuestionIndex = s.currentQuestionIndex ∧
    (finish s).time = s.time ∧ (finish s).error = s.error := by
  unfold finish handleFinish
  split <;> simp

theorem tick_fields (s : AppState) :
    (tick s).quizStatus = s.quizStatus ∧ (tick s).topic = s.topic ∧
    (tick s).questions = s.questions ∧ (tick s).userAnswers = s.userAnswers ∧
    (tick s).score = s.score ∧ (tick s).error = s.error ∧
    (tick s).currentQuestionIndex = s.currentQuestionIndex := by
  unfold tick
  split <;> simp

theorem answer_score_ge (s : AppState) (x : String) : s.score ≤ (answer s x).score := by
  unfold answer handleAnswer
  split
  · split
    · dsimp only
      split <;> omega
    · exact Nat.le_refl _
  · exact Nat.le_refl _

theorem inv_fetchQuestions (s : AppState) (r : Except String (List QuizQuestion))
    (h : Inv s) : Inv (fetchQuestions s r) := by
  unfold fetchQuestions
  split
  · exact h
  · cases r with
    | ok qs =>
        dsimp only
        split
        · exact h
        · constructor
          · simp
          · simp [countSome_replicate_none]
    | error m => exact h

theorem inv_answer (s : AppState) (x : String) (h : Inv s) : Inv (answer s x) := by
  unfold answer handleAnswer
  split
  · split
    · rename_i heq
      constructor
      · simp [Inv] at h ⊢
        exact h.1
      · dsimp only
        rw [countSome_set s.userAnswers s.currentQuestionIndex x heq]
        have h2 := h.2
        split <;> omega
    · exact h
  · exact h

theorem inv_step (s : AppState) (op : Op) (h : Inv s) : Inv (step s op) := by
  cases op with
  | start r =>
      simp only [step]
      split
      · exact inv_fetchQuestions s r h
      · exact h
  | restart r =>
      simp only [step]
      split
      · exact inv_fetchQuestions s r h
      · exact h
  | answer x => exact inv_answer s x h
  | next =>
      have hf := next_fields s
      unfold Inv at h ⊢
      rw [show step s Op.next = next s from rfl, hf.2.2.1, hf.2.2.2.1, hf.2.2.2.2.1]
      exact h
  | back =>
      have hf := back_fields s
      unfold Inv at h ⊢
      rw [show step s Op.back = back s from rfl, hf.2.2.1, hf.2.2.2.1, hf.2.2.2.2.1]
      exact h
  | finish =>
      have hf := finish_fields s
      unfold Inv at h ⊢
      rw [show step s Op.finish = finish s from rfl, hf.2.1, hf.2.2.1, hf.2.2.2.1]
      exact h
  | tick =>
      have hf := tick_fields s
      unfold Inv at h ⊢
      rw [show step s Op.tick = tick s from rfl, hf.2.2.1, hf.2.2.2.1, hf.2.2.2.2.1]
      exact h
  | setTopic t =>
      simp only [step]
      split
      · exact h
      · exact h

theorem inv_initial : Inv initialState := by
  constructor <;> simp [initialState, countSome]

theorem inv_of_reachable (s : AppState) (h : Reachable s) : Inv s := by
  induction h with
  | init => exact inv_initial
  | step _ op ih => exact inv_step _ op ih

theorem score_step_mono (s : AppState) (op : Op) (h : op.isLoad = false) :
    s.score ≤ (step s op).score := by
  cases op with
  | start r => simp [Op.isLoad] at h
  | restart r => simp [Op.isLoad] at h
  | answer x => exact answer_score_ge s x
  | next => exact Nat.le_of_eq (next_fields s).2.2.2.2.1.symm
  | back => exact Nat.le_of_eq (back_fields s).2.2.2.2.1.symm
  | finish => exact Nat.le_of_eq (finish_fields s).2.2.2.1.symm
  | tick => exact Nat.le_of_eq (tick_fields s).2.2.2.2.1.symm
  | setTopic t =>
      simp only [step]
      split <;> simp

/-! Lemmas about decimal rendering and padding, for the time display. -/

theorem toDigitsCore_length_le (fuel n : Nat) (ds : List Char) :
    ds.length ≤ (Nat.toDigitsCore 10 fuel n ds).length := by
  induction fuel generalizing n ds with
  | zero => simp [Nat.toDigitsCore]
  | succ f ih =>
      rw [Nat.toDigitsCore]
      split
      · simp
      · have := ih (n / 10) (Nat.digitChar (n % 10) :: ds)
        simp at this
        omega

theorem toDigitsCore_length_ge_one (fuel n : Nat) (ds : List Char) (h : 0 < fuel) :
    ds.length + 1 ≤ (Nat.toDigitsCore 10 fuel n ds).length := by
  cases fuel with
  | zero => omega
  | succ f =>
      rw [Nat.toDigitsCore]
      split
      · simp
      · have := toDigitsCore_length_le f (n / 10) (Nat.digitChar (n % 10) :: ds)
        simp at this
        omega

theorem toDigitsCore_length_ge_two (fuel n : Nat) (ds : List Char)
    (hn : 10 ≤ n) (hfuel : n < fuel) :
    ds.length + 2 ≤ (Nat.toDigitsCore 10 fuel n ds).length := by
  cases fuel with
  | zero => omega
  | succ f =>
      rw [Nat.toDigitsCore]
      split
      · rename_i hdiv
        have : 1 ≤ n / 10 := (Nat.le_div_iff_mul_le (by omega)).2 (by omega)
        omega
      · have := toDigitsCore_length_ge_one f (n / 10) (Nat.digitChar (n % 10) :: ds) (by omega)
        simp at this
        omega

theorem toDigitsCore_length_ge_three (fuel n : Nat) (ds : List Char)
    (hn : 100 ≤ n) (hfuel : n < fuel) :
    ds.length + 3 ≤ (Nat.toDigitsCore 10 fuel n ds).length := by
  cases fuel with
  | zero => omega
  | succ f =>
      rw [Nat.toDigitsCore]
      split
      · rename_i hdiv
        have : 1 ≤ n / 10 := (Nat.le_div_iff_mul_le (by omega)).2 (by omega)
        omega
      · have hten : 10 ≤ n / 10 := (Nat.le_div_iff_mul_le (by omega)).2 (by omega)
        have hlt : n / 10 < f := by
          have := Nat.div_lt_self (by omega : 0 < n) (by omega : 1 < 10)
          omega
        have := toDigitsCore_length_ge_two f (n / 10) (Nat.digitChar (n % 10) :: ds) hten hlt
        simp at this
        omega

theorem repr_length_of_ge_100 (n : Nat) (h : 100 ≤ n) : 3 ≤ (Nat.repr n).length := by
  have := toDigitsCore_length_ge_three (n + 1) n [] h (Nat.lt_succ_self n)
  simpa [Nat.repr, Nat.toDigits, List.asString] using this

theorem mk_nil_append (t : String) : String.mk [] ++ t = t := by
  cases t
  rfl

theorem padStart_of_two_le (str : String) (h : 2 ≤ str.length) :
    padStart str 2 '0' = str := by
  unfold padStart
  rw [Nat.sub_eq_zero_of_le h, List.replicate_zero]
  exact mk_nil_append str

theorem padStart_eq_leftPadZeros (str : String) (k : Nat) :
    padStart str k '0' = leftPadZeros str k := by
  unfold padStart leftPadZeros
  split
  · rename_i hle
    rw [Nat.sub_eq_zero_of_le hle, List.replicate_zero]
    exact mk_nil_append str
  · rfl

/-! Claim theorems. -/

/-- C1: in an InProgress state, next is a no-op when the current answer slot
is unset; when the slot is set and the index is below questions.length - 1
it advances the index by exactly 1; and the index stays below
questions.length whenever it was. -/
theorem next_guard_and_advance (s : AppState) (h : s.quizStatus = QuizStatus.IN_PROGRESS) :
    (s.userAnswers[s.currentQuestionIndex]? = some none → next s = s) ∧
    (∀ a : String, s.userAnswers[s.currentQuestionIndex]? = some (some a) →
      s.currentQuestionIndex < s.questions.length - 1 →
      next s = { s with currentQuestionIndex := s.currentQuestionIndex + 1 }) ∧
    (s.currentQuestionIndex < s.questions.length →
      (next s).currentQuestionIndex < s.questions.length) := by
  refine ⟨?_, ?_, ?_⟩
  · intro hslot
    have hA : isAnswered s = false := by simp [isAnswered, hslot]
    simp [next, hA]
  · intro a hslot hlt
    have hA : isAnswered s = true := by simp [isAnswered, hslot]
    have hlen : s.currentQuestionIndex + 1 < s.questions.length := by omega
    simp [next, handleNext, h, hA, hlen, hlt]
  · intro hlt
    unfold next handleNext
    split_ifs
    all_goals try simp
    all_goals omega

/-- C1 witness: in the sample InProgress state with the first slot set, next
moves the index from 0 to 1. -/
theorem next_guard_and_advance_witness :
    next sampleInProgress = { sampleInProgress with currentQuestionIndex := 1 } :=
  (next_guard_and_advance sampleInProgress rfl).2.1 "A" rfl (by decide)

set_option maxRecDepth 4000 in
/-- C2 counterexample: a reachable InProgress state in which the slot of the
last question is set but the index is 0; finish is a no-op there, so the
slot of the last question being set does not make finish set status
Finished. -/
theorem finish_requires_last_position_cex :
    allAnsweredAtStart.quizStatus = QuizStatus.IN_PROGRESS ∧
    allAnsweredAtStart.currentQuestionIndex = 0 ∧
    allAnsweredAtStart.userAnswers[9]? = some (some "A") ∧
    finish allAnsweredAtStart = allAnsweredAtStart ∧
    ¬ (finish allAnsweredAtStart).quizStatus = QuizStatus.FINISHED := by decide

/-- C2 amended: in an InProgress state, finish is a no-op unless the current
index is the last one and the current (hence last) slot is set; when both
hold it sets status FINISHED. -/
theorem finish_guard (s : AppState) (h : s.quizStatus = QuizStatus.IN_PROGRESS) :
    (s.currentQuestionIndex + 1 < s.questions.length ∨
      s.userAnswers[s.currentQuestionIndex]? = some none → finish s = s) ∧
    (¬ s.currentQuestionIndex + 1 < s.questions.length → isAnswered s = true →
      finish s = { s with quizStatus := QuizStatus.FINISHED }) := by
  constructor
  · rintro (hlt | hslot)
    · simp [finish, hlt]
    · have hA : isAnswered s = false := by simp [isAnswered, hslot]
      simp [finish, hA]
  · intro hnl hA
    simp [finish, handleFinish, h, hnl, hA]

/-- C2 witness: in the sample state sitting answered on the last question,
finish sets status FINISHED. -/
theorem finish_guard_witness :
    finish sampleAtLast = { sampleAtLast with quizStatus := QuizStatus.FINISHED } :=
  (finish_guard sampleAtLast rfl).2 (by decide) (by decide)

set_option maxRecDepth 4000 in
/-- C3 counterexample: a full session is played to FINISHED with score 10
and 3 timer ticks, then restart runs a failing generation; the controller
ends in NOT_STARTED with the error set, but questions, userAnswers, score
and time all still hold the values of the finished session. -/
theorem failed_restart_retains_state_cex :
    failedRestartRun.quizStatus = QuizStatus.NOT_STARTED ∧
    failedRestartRun.error = some "boom" ∧
    failedRestartRun.questions.length = 10 ∧
    failedRestartRun.score = 10 ∧
    failedRestartRun.time = 3 ∧
    failedRestartRun.userAnswers = List.replicate 10 (some "A") := by decide

/-- C3 amended: a start or restart whose generation fails or returns fewer
than 10 questions ends in NOT_STARTED with the error message set, and
leaves questions, userAnswers, currentQuestionIndex, score and time exactly
as they were before the attempt (they are not cleared). -/
theorem fetch_failure_keeps_fields (s : AppState) (r : Except String (List QuizQuestion))
    (htopic : ¬ trim s.topic = "")
    (hfail : (∃ m, r = Except.error m) ∨ ∃ qs, r = Except.ok qs ∧ qs.length < 10) :
    (fetchQuestions s r).quizStatus = QuizStatus.NOT_STARTED ∧
    (∃ m, (fetchQuestions s r).error = some m) ∧
    (fetchQuestions s r).questions = s.questions ∧
    (fetchQuestions s r).userAnswers = s.userAnswers ∧
    (fetchQuestions s r).currentQuestionIndex = s.currentQuestionIndex ∧
    (fetchQuestions s r).score = s.score ∧
    (fetchQuestions s r).time = s.time := by
  rcases hfail with ⟨m, rfl⟩ | ⟨qs, rfl, hlen⟩
  · simp [fetchQuestions, htopic]
  · simp [fetchQuestions, htopic, hlen]

/-- C3 witness: a failing generation from the sample state keeps all its
session fields. -/
theorem fetch_failure_keeps_fields_witness :
    (fetchQuestions sampleInProgress (Except.error "x")).quizStatus = QuizStatus.NOT_STARTED ∧
    (∃ m, (fetchQuestions sampleInProgress (Except.error "x")).error = some m) ∧
    (fetchQuestions sampleInProgress (Except.error "x")).questions = sampleInProgress.questions ∧
    (fetchQuestions sampleInProgress (Except.error "x")).userAnswers = sampleInProgress.userAnswers ∧
    (fetchQuestions sampleInProgress (Except.error "x")).currentQuestionIndex = sampleInProgress.currentQuestionIndex ∧
    (fetchQuestions sampleInProgress (Except.error "x")).score = sampleInProgress.score ∧
    (fetchQuestions sampleInProgress (Except.error "x")).time = sampleInProgress.time :=
  fetch_failure_keeps_fields sampleInProgress (Except.error "x") (by decide)
    (Or.inl ⟨"x", rfl⟩)

/-- C4 counterexample: with the API key set and the response parsing to a
single malformed record, generateQuizQuestions returns that record: the
sequence has fewer than 10 questions and its record has 2 options, a
correct answer matching no option, and a missing explanation field. -/
theorem generate_returns_invalid_cex :
    generateQuizQuestions (some "key") (some [badQuestion]) = Except.ok [badQuestion] ∧
    ¬ wellFormedQuestion badQuestion ∧
    ([badQuestion] : List RawQuestion).length < 10 := by
  refine ⟨rfl, by decide, by decide⟩

/-- C4 amended: generateQuizQuestions either fails with a message (missing
key, unparsable or missing questions array, or empty array) or returns the
parsed array verbatim whenever it is nonempty, with no per-record
validation and no check that it holds at least 10 questions. -/
theorem generate_validation (apiKey : Option String) (parsed : Option (List RawQuestion)) :
    (∃ m, generateQuizQuestions apiKey parsed = Except.error m) ∨
    (∃ qs, parsed = some qs ∧ 0 < qs.length ∧
      generateQuizQuestions apiKey parsed = Except.ok qs) := by
  unfold generateQuizQuestions
  split
  · exact Or.inl ⟨_, rfl⟩
  · cases parsed with
    | none => exact Or.inl ⟨_, rfl⟩
    | some qs =>
        by_cases h : qs.length > 0
        · exact Or.inr ⟨qs, rfl, h, by simp [h]⟩
        · exact Or.inl ⟨"Could not generate the quiz. Please check the topic or try again later.",
            by simp [h]⟩

/-- C5: in an InProgress state, answer is a no-op once the current slot is
set; when the slot is unset, a call records the selection in the slot,
increments score exactly when the selection equals the correct answer of
the current question, changes nothing else, and makes every subsequent
answer call a no-op. -/
theorem answer_write_once (s : AppState) (x y : String) (q : QuizQuestion)
    (h : s.quizStatus = QuizStatus.IN_PROGRESS)
    (hq : s.questions[s.currentQuestionIndex]? = some q) :
    (isAnswered s = true → answer s x = s) ∧
    (s.userAnswers[s.currentQuestionIndex]? = some none →
      (answer s x).userAnswers = s.userAnswers.set s.currentQuestionIndex (some x) ∧
      (answer s x).score = (if q.correctAnswer = x then s.score + 1 else s.score) ∧
      (answer s x).quizStatus = s.quizStatus ∧
      (answer s x).currentQuestionIndex = s.currentQuestionIndex ∧
      (answer s x).questions = s.questions ∧
      (answer s x).time = s.time ∧
      (answer s x).error = s.error ∧
      answer (answer s x) y = answer s x) := by
  constructor
  · intro hA
    simp [answer, hA]
  · intro hslot
    have hA : isAnswered s = false := by simp [isAnswered, hslot]
    have hrec : answer s x =
        { s with userAnswers := s.userAnswers.set s.currentQuestionIndex (some x)
                 score := if q.correctAnswer = x then s.score + 1 else s.score } := by
      simp [answer, handleAnswer, h, hA, hslot, List.getD_eq_getElem?_getD, hq]
    have hlen : s.currentQuestionIndex < s.userAnswers.length := by
      by_contra hc
      rw [List.getElem?_eq_none (by omega)] at hslot
      exact Option.noConfusion hslot
    have hset : isAnswered (answer s x) = true := by
      rw [hrec]
      simp [isAnswered, List.getElem?_set_self hlen]
    refine ⟨by rw [hrec], by rw [hrec], by rw [hrec], by rw [hrec], by rw [hrec],
      by rw [hrec], by rw [hrec], ?_⟩
    rw [hrec] at hset
    rw [hrec]
    simp [answer, hset]

/-- C5 witness: from an unanswered sample state, answering records the slot,
sets score 1 for the correct option, and a second call is a no-op. -/
theorem answer_write_once_witness :
    (answer sampleUnanswered "A").userAnswers = sampleUnanswered.userAnswers.set 0 (some "A") ∧
    (answer sampleUnanswered "A").score = 1 ∧
    answer (answer sampleUnanswered "A") "B" = answer sampleUnanswered "A" := by
  have h := (answer_write_once sampleUnanswered "A" "B" sampleQuestion rfl
    (by decide)).2 (by decide)
  exact ⟨h.1, by rw [h.2.1]; decide, h.2.2.2.2.2.2.2⟩

/-- Monotonicity of the score under any run of non-loading operations. -/
theorem score_foldl_mono (ops : List Op) : ∀ t : AppState,
    (∀ op ∈ ops, op.isLoad = false) → t.score ≤ (ops.foldl step t).score := by
  induction ops with
  | nil => intro t _; exact Nat.le_refl _
  | cons op rest ih =>
      intro t hops
      have h1 := score_step_mono t op (hops op (List.mem_cons_self op rest))
      have h2 := ih (step t op) (fun o ho => hops o (List.mem_cons_of_mem op ho))
      simpa using Nat.le_trans h1 h2

/-- C6: in every reachable state the score is at most the number of
questions, and the score never decreases across any run of operations that
does not start or restart a session. -/
theorem score_bounded_and_monotone (s t : AppState) (hs : Reachable s) (ops : List Op)
    (hops : ∀ op ∈ ops, op.isLoad = false) :
    s.score ≤ s.questions.length ∧ t.score ≤ (ops.foldl step t).score := by
  refine ⟨?_, score_foldl_mono ops t hops⟩
  have hi := inv_of_reachable s hs
  have h1 := hi.1
  have h2 := hi.2
  have h3 := countSome_le_length s.userAnswers
  omega

/-- C6 witness: the bound at the initial state and monotonicity over an
answer followed by a tick. -/
theorem score_bounded_and_monotone_witness :
    initialState.score ≤ initialState.questions.length ∧
    sampleInProgress.score ≤ ([Op.answer "B", Op.tick].foldl step sampleInProgress).score :=
  score_bounded_and_monotone initialState sampleInProgress Reachable.init
    [Op.answer "B", Op.tick] (by decide)

/-- C7: a start or restart whose generation returns at least 10 questions
seeds a fresh InProgress session: index 0, score 0, time 0, questions as
returned, and an all-unset answer list of the same length. -/
theorem start_success_seeds (s : AppState) (qs : List QuizQuestion)
    (htopic : ¬ trim s.topic = "") (hlen : 10 ≤ qs.length) :
    fetchQuestions s (Except.ok qs) =
      { s with quizStatus := QuizStatus.IN_PROGRESS
               questions := qs
               userAnswers := List.replicate qs.length none
               currentQuestionIndex := 0
               score := 0
               time := 0
               error := none } ∧
    (List.replicate qs.length (none : Option String)).length = qs.length ∧
    ∀ a ∈ List.replicate qs.length (none : Option String), a = none := by
  refine ⟨?_, by simp, ?_⟩
  · simp [fetchQuestions, htopic, Nat.not_lt.2 hlen]
  · intro a ha
    exact List.eq_of_mem_replicate ha

/-- C7 witness: starting from the initial state with ten questions seeds the
fresh session. -/
theorem start_success_seeds_witness :
    fetchQuestions initialState (Except.ok tenQuestions) =
      { initialState with quizStatus := QuizStatus.IN_PROGRESS
                          questions := tenQuestions
                          userAnswers := List.replicate 10 none
                          currentQuestionIndex := 0
                          score := 0
                          time := 0
                          error := none } :=
  (start_success_seeds initialState tenQuestions (by decide) (by decide)).1

/-- C8: a tick adds exactly 1 to time in an InProgress state, changes
nothing in any other status, and a successful generation resets time to 0
at the start of the new session. -/
theorem timer_spec (s : AppState) (qs : List QuizQuestion)
    (htopic : ¬ trim s.topic = "") (hlen : 10 ≤ qs.length) :
    (s.quizStatus = QuizStatus.IN_PROGRESS → tick s = { s with time := s.time + 1 }) ∧
    (¬ s.quizStatus = QuizStatus.IN_PROGRESS → tick s = s) ∧
    (fetchQuestions s (Except.ok qs)).time = 0 := by
  refine ⟨?_, ?_, ?_⟩
  · intro h; simp [tick, h]
  · intro h; simp [tick, h]
  · simp [fetchQuestions, htopic, Nat.not_lt.2 hlen]

/-- C8 witness: a tick in the sample InProgress state moves time from 7 to
8, and a fresh successful load has time 0. -/
theorem timer_spec_witness :
    tick sampleInProgress = { sampleInProgress with time := 8 } ∧
    (fetchQuestions sampleInProgress (Except.ok tenQuestions)).time = 0 := by
  have h := timer_spec sampleInProgress tenQuestions (by decide) (by decide)
  exact ⟨h.1 rfl, h.2.2⟩

/-- C9: next and back change at most currentQuestionIndex; status, topic,
questions, userAnswers, score, time and error are untouched whether the
call is accepted or rejected, in every state. -/
theorem nav_frame (s : AppState) :
    ((next s).quizStatus = s.quizStatus ∧ (next s).topic = s.topic ∧
     (next s).questions = s.questions ∧ (next s).userAnswers = s.userAnswers ∧
     (next s).score = s.score ∧ (next s).time = s.time ∧ (next s).error = s.error) ∧
    ((back s).quizStatus = s.quizStatus ∧ (back s).topic = s.topic ∧
     (back s).questions = s.questions ∧ (back s).userAnswers = s.userAnswers ∧
     (back s).score = s.score ∧ (back s).time = s.time ∧ (back s).error = s.error) :=
  ⟨next_fields s, back_fields s⟩

/-- C10: the display string is the decimal minutes left-padded with zeros to
at least 2 digits, a colon, and the seconds padded to 2 digits; for 6000
seconds and above the minutes part is the unpadded decimal of s / 60 and
has more than two digits (never wrapped at 60 or capped). -/
theorem formatTime_spec (s : Nat) :
    formatTime s = elapsedDisplaySpec s ∧
    (6000 ≤ s →
      formatTime s = Nat.repr (s / 60) ++ ":" ++ padStart (Nat.repr (s % 60)) 2 '0' ∧
      3 ≤ (Nat.repr (s / 60)).length) := by
  constructor
  · simp only [formatTime, elapsedDisplaySpec]
    rw [padStart_eq_leftPadZeros, padStart_eq_leftPadZeros]
  · intro h
    have hdiv : 100 ≤ s / 60 := (Nat.le_div_iff_mul_le (by omega)).2 (by omega)
    have hlen := repr_length_of_ge_100 _ hdiv
    constructor
    · simp only [formatTime]
      rw [padStart_of_two_le _ (by omega)]
    · exact hlen

/-- C10 witness: at 6000 seconds the display is the three-digit minutes
string joined with the padded seconds. -/
theorem formatTime_spec_witness :
    formatTime 6000 = elapsedDisplaySpec 6000 ∧
    formatTime 6000 = Nat.repr 100 ++ ":" ++ padStart (Nat.repr 0) 2 '0' ∧
    3 ≤ (Nat.repr 100).length := by
  have h := formatTime_spec 6000
  exact ⟨h.1, (h.2 (by decide)).1, (h.2 (by decide)).2⟩

end Quiz
